import Mathlib

/-!
Verification of the cardinality-analysis identity-review engine.

This file gives a shallow embedding, in Lean, of the parts of the Python
source that the specification's claims talk about:

* `bitarray_util.py` — the temporal bitmap codec
  (`convert_bitarray_to_string` / `convert_string_to_bitarray`);
* `ssn_util.py` — SSN normalization (`clean_ssn`);
* `k12_processor.py` — enrollment preprocessing (`preprocess_data`) and
  the pivot trimming step (`trim_non_enrollment_years`);
* `wage_processor.py` — sentinel normalization / deduplication
  (`_housekeep`) and the quarterly presence matrix (`_presence_matrix`);
* `groupid_assigner.py` — the greedy fingerprint clusterer
  (`GroupIdAssigner.assign_group_ids`), together with the worksheet-side
  wrapper `process_worksheet_group_ids` from `worksheet_utils.py`;
* `worksheet_consume.py` — the two-phase review-consumption pipeline
  (`UnmergeWorksheetConsumer`), with the database modelled as explicit
  lists of classification rows and each SQLAlchemy insert/delete as a
  pure state transformation.

DataFrames are modelled as lists of records in row order; pandas
`drop_duplicates(keep="first")` and `pivot_table(aggfunc="first")` are
modelled by keep-first deduplication and first-match lookup; a pandas
null (NaN/NaT) cell is an `Option` that is `none`, and the pandas rule
that `NaT <= t` is `False` is written out explicitly where it matters.
-/

namespace CardinalityAnalysis

/-! ### bitarray_util.py -/

/-- `convert_bitarray_to_string(bitarray, enrolled_char, not_enrolled_char)`:
each bit equal to 1 becomes `enrolled_char`, anything else becomes
`not_enrolled_char`. -/
def convert_bitarray_to_string (bitarray : List Nat)
    (enrolled_char : Char := '#') (not_enrolled_char : Char := '_') : String :=
  String.mk (bitarray.map (fun bit => if bit == 1 then enrolled_char else not_enrolled_char))

/-- `convert_string_to_bitarray(enrollment_string, enrolled_char)`: the
enrolled character maps to 1, every other character to 0. -/
def convert_string_to_bitarray (enrollment_string : String)
    (enrolled_char : Char := '#') : List Nat :=
  enrollment_string.toList.map (fun ch => if ch == enrolled_char then 1 else 0)

/-! ### ssn_util.py -/

/-- `clean_ssn(ssn)`: stringify (a pandas NaN stringifies to `"nan"`),
keep only digit characters, succeed only when exactly 9 digits remain.
The Python function raises `ValueError` on failure; here failure is
`none`. -/
def clean_ssn (ssn : Option String) : Option String :=
  let s := match ssn with
    | some s => s
    | none => "nan"
  let digits := s.toList.filter Char.isDigit
  if digits.length = 9 then some (String.mk digits) else none

/-! ### k12_processor.py — preprocessing -/

/-- A calendar date, compared lexicographically by (year, month, day). -/
structure Date where
  year : Int
  month : Nat
  day : Nat
deriving DecidableEq, Repr

/-- Date comparison `a <= b` by (year, month, day). -/
def dateLe (a b : Date) : Bool :=
  decide (a.year < b.year ∨ (a.year = b.year ∧
    (a.month < b.month ∨ (a.month = b.month ∧ a.day ≤ b.day))))

/-- One raw K12 enrollment row: TokenID, OrganizationYear and the two
enrollment dates, either of which may be a pandas null (`none`). -/
structure K12Row where
  TokenID : Nat
  OrganizationYear : Int
  EnrollmentBeginDT : Option Date
  EnrollmentEndDT : Option Date
deriving DecidableEq, Repr

/-- August 31 of the organization year — the `SchoolYearEnd` column that
`preprocess_data` computes for each row. -/
def schoolYearEnd (organizationYear : Int) : Date :=
  ⟨organizationYear, 8, 31⟩

/-- The row filter `k12_df['EnrollmentBeginDT'] <= k12_df['SchoolYearEnd']`.
In pandas a comparison against a missing timestamp (`NaT`) is `False`,
so a row whose begin date is absent is discarded. -/
def k12KeepRow (r : K12Row) : Bool :=
  match r.EnrollmentBeginDT with
  | some b => dateLe b (schoolYearEnd r.OrganizationYear)
  | none => false

/-- The `fillna` step: an absent `EnrollmentEndDT` is defaulted to
September 1 of the year before the organization year. -/
def k12FillEnd (r : K12Row) : K12Row :=
  { r with
      EnrollmentEndDT := some (r.EnrollmentEndDT.getD ⟨r.OrganizationYear - 1, 9, 1⟩) }

/-- `K12Processor.preprocess_data`: filter by the begin-date-versus-anchor
rule, then default absent end dates.  (The method also copies
`OrganizationYear` into a `SchoolYear` column; the copy carries no extra
information and is left implicit here.) -/
def preprocess_data (k12_df : List K12Row) : List K12Row :=
  (k12_df.filter k12KeepRow).map k12FillEnd

/-! ### k12_processor.py — pivot trimming

The pivot handed to `trim_non_enrollment_years` is a Token × school-year
matrix of 12-bit lists.  We model it column-wise: one entry per
school-year column, each column a list of cells (one per Token), a cell
being `none` for a missing (NaN) entry — the Python code converts any
non-list cell to `[]` before summing. -/

/-- `has_enrollment` of one cell: sum of the bitarray, with a missing
cell counting 0. -/
def cellSum : Option (List Nat) → Nat
  | none => 0
  | some bits => bits.sum

/-- A school-year column is "all-zero" when every Token's cell sums to 0
(this is the `col_data.apply(has_enrollment).eq(0).all()` test). -/
def colZero (col : List (Option (List Nat))) : Bool :=
  col.all (fun cell => cellSum cell == 0)

/-- Index of the first column that is not all-zero (the loop computing
`first_enrolled`, without its fallback default). -/
def firstNZ : List (List (Option (List Nat))) → Option Nat
  | [] => none
  | c :: cs => if colZero c then (firstNZ cs).map (· + 1) else some 0

/-- Index of the last column that is not all-zero (the reversed loop
computing `last_enrolled`, without its fallback default). -/
def lastNZ (cols : List (List (Option (List Nat)))) : Option Nat :=
  (firstNZ cols.reverse).map (fun i => cols.length - 1 - i)

/-- `K12Processor.trim_non_enrollment_years`: slice the columns from
`first_enrolled` to `last_enrolled` inclusive, where `first_enrolled`
defaults to 0 and `last_enrolled` to the final index when no column has
an enrollment (the loops then never `break`). -/
def trim_non_enrollment_years (k12_pivot : List (List (Option (List Nat)))) :
    List (List (Option (List Nat))) :=
  let first_enrolled := (firstNZ k12_pivot).getD 0
  let last_enrolled := (lastNZ k12_pivot).getD (k12_pivot.length - 1)
  (k12_pivot.take (last_enrolled + 1)).drop first_enrolled

/-! ### wage_processor.py -/

/-- One raw wage row, restricted to the fields `_housekeep` and
`_presence_matrix` read (the organization id/name metadata plays no role
in the presence matrix). -/
structure WageRow where
  TokenID : Nat
  OrganizationYear : Int
  TermTypeCD : String
  WageHR : Rat
  WageAMT : Rat
deriving DecidableEq, Repr

/-- `WageProcessor.QUARTERS`. -/
def QUARTERS : List String := ["1", "2", "3", "4"]

/-- The amount sentinel −9999.99, written as the reduced fraction
−999999/100 so that it evaluates by kernel reduction. -/
def sentinelAMT : Rat := Rat.mk' (-999999) 100

/-- `sentinelAMT` really is −9999.99. -/
theorem sentinelAMT_eq : sentinelAMT = -9999.99 := by
  norm_num [sentinelAMT, Rat.mk'_eq_divInt, Rat.divInt_eq_div]

/-- Sentinel replacement of `_housekeep`: an hours value of exactly
−9999 and an amount value of exactly −9999.99 are normalized to 0. -/
def wageNormalize (r : WageRow) : WageRow :=
  { r with
      WageHR := if r.WageHR = -9999 then 0 else r.WageHR,
      WageAMT := if r.WageAMT = sentinelAMT then 0 else r.WageAMT }

/-- pandas `drop_duplicates(keep="first")` over the full field tuple:
keep a row exactly when no identical row occurred earlier. -/
def dedupFirstAux (seen : List WageRow) : List WageRow → List WageRow
  | [] => []
  | r :: rs =>
    if seen.contains r then dedupFirstAux seen rs
    else r :: dedupFirstAux (r :: seen) rs

/-- `WageProcessor._housekeep`: normalize the sentinels, then drop rows
that duplicate an earlier row on
(TokenID, OrganizationYear, TermTypeCD, WageAMT, WageHR) — with the
metadata fields omitted, that subset is the whole record. -/
def housekeep (df : List WageRow) : List WageRow :=
  dedupFirstAux [] (df.map wageNormalize)

/-- Does a row land in the pivot cell (TokenID = t, OrganizationYear = y,
TermTypeCD = q)? -/
def wageCellMatch (t : Nat) (y : Int) (q : String) (r : WageRow) : Bool :=
  r.TokenID == t && r.OrganizationYear == y && r.TermTypeCD == q

/-- The housekept frame restricted to quarter rows
(`df[df["TermTypeCD"].isin(self.QUARTERS)]`). -/
def quarterRows (df : List WageRow) : List WageRow :=
  (housekeep df).filter (fun r => QUARTERS.contains r.TermTypeCD)

/-- One cell of the `HasWages` pivot: `pivot_table(aggfunc="first",
fill_value=False)` groups the quarter rows by (TokenID,
OrganizationYear, TermTypeCD) and keeps the first row's `HasWages`
value; a cell with no rows is `False`.  `HasWages` is `WageAMT > 0`. -/
def presenceBit (df : List WageRow) (t : Nat) (y : Int) (q : String) : Bool :=
  match (quarterRows df).find? (wageCellMatch t y q) with
  | some r => decide (r.WageAMT > 0)
  | none => false

/-- The `wq_<year>_P` display string for one Token and year: the four
quarter bits rendered through `convert_bitarray_to_string`. -/
def presenceString (df : List WageRow) (t : Nat) (y : Int) : String :=
  convert_bitarray_to_string
    (QUARTERS.map (fun q => if presenceBit df t y q then 1 else 0)) '#' '_'

/-! ### groupid_assigner.py

`GroupIdAssigner.assign_group_ids` is a while-loop over a shrinking set
of distinct fingerprint (SmashID) strings.  Each iteration ("round")
picks the primary — the longest unassigned string, ties broken by
ascending lexical order — allocates a GroupID from a counter that starts
at 1 and advances by 2, and absorbs every strictly shorter unassigned
string whose character set is a subset of the primary's.  (The loop's
same-length equality check can never fire: the pool holds *distinct*
strings, so no other element can equal the primary.)  A token that
carries several fingerprints ends up with the GroupID of the round that
assigned the *last* of them, because the Python dict entry is
overwritten on each assignment.

The loop is embedded with structural recursion on a fuel argument set to
the size of the initial pool; each round removes at least the primary,
so that fuel is always sufficient. -/

/-- Lexicographic comparison of two character sequences, exactly
Python's `<` on strings (code point by code point, a strict prefix
being smaller). -/
def lexLt : List Char → List Char → Bool
  | [], [] => false
  | [], _ :: _ => true
  | _ :: _, [] => false
  | a :: as, b :: bs => if a < b then true else if a = b then lexLt as bs else false

/-- The Python sort key `(-len(s), s)`: `smashBetter a b` says `a`
precedes `b`, i.e. `a` is longer, or of equal length and lexically
smaller. -/
def smashBetter (a b : String) : Bool :=
  b.length < a.length || (a.length == b.length && lexLt a.toList b.toList)

/-- One comparison step of the primary selection: keep the better of
the accumulator and the next candidate. -/
def pickStep (acc : Option String) (s : String) : Option String :=
  match acc with
  | none => some s
  | some t => if smashBetter s t then some s else some t

/-- `sorted(unassigned, key=lambda s: (-len(s), s))[0]`: the maximal
element under `smashBetter`, `none` for an empty pool. -/
def primaryPick (l : List String) : Option String :=
  l.foldl pickStep none

/-- Python `set(a).issubset(set(b))` on strings. -/
def charSubset (a b : String) : Bool :=
  a.toList.all (fun c => b.toList.contains c)

/-- Is `s` absorbed by the round whose primary is `p`?  Either `s` *is*
the primary, or it is strictly shorter and a character-set subset. -/
def absorbedBy (p s : String) : Bool :=
  s == p || (s.length < p.length && charSubset s p)

/-- The rounds of the while-loop: from a pool of distinct unassigned
fingerprints and the current counter value, produce the list of
(GroupID, fingerprints assigned in that round) in allocation order. -/
def clusterRoundsFuel : Nat → List String → Nat → List (Nat × List String)
  | 0, _, _ => []
  | fuel + 1, l, c =>
    match primaryPick l with
    | none => []
    | some p =>
      (c, l.filter (absorbedBy p)) ::
        clusterRoundsFuel fuel (l.filter (fun s => !absorbedBy p s)) (c + 2)

/-- The rounds of `assign_group_ids`, with fuel `l.length`. -/
def clusterRounds (l : List String) (c : Nat) : List (Nat × List String) :=
  clusterRoundsFuel l.length l c

/-- `GroupIdAssigner.assign_group_ids(token_smashids)` with the counter
value `c` the assigner holds at call time (a fresh assigner has `c = 1`).
The result maps a TokenID to its GroupID, `none` for a TokenID that
never appears in the input.  The fold keeps the GroupID of the *last*
round that assigns any of the token's fingerprints, mirroring the dict
overwrite in the Python loop. -/
def assign_group_ids (token_smashids : List (Nat × String)) (c : Nat) :
    Nat → Option Nat :=
  fun t =>
    let smashes := (token_smashids.filter (fun pr => pr.1 == t)).map Prod.snd
    let rounds := clusterRounds ((token_smashids.map Prod.snd).dedup) c
    rounds.foldl
      (fun acc gs => if gs.2.any (fun s => smashes.contains s) then some gs.1 else acc)
      none

/-! ### worksheet_utils.py -/

/-- Helper for `splitOnPipe`: accumulate the current segment (reversed)
while scanning. -/
def splitOnPipeAux : List Char → List Char → List String
  | [], cur => [String.mk cur.reverse]
  | ch :: cs, cur =>
    if ch = '|' then String.mk cur.reverse :: splitOnPipeAux cs []
    else splitOnPipeAux cs (ch :: cur)

/-- Python `smash.split("|")`: split on every pipe, keeping empty
segments (so `"ABC|".split("|") == ["ABC", ""]`). -/
def splitOnPipe (s : String) : List String :=
  splitOnPipeAux s.toList []

/-- `process_worksheet_group_ids(token_smash_final)`: the worksheet-side
wrapper.  The input dict is modelled as an association list of
(TokenID, final SmashID); an *empty* SmashID is falsy in Python, so its
token contributes no pairs at all; a non-empty SmashID is split on `"|"`
into its tied variants.  A fresh `GroupIdAssigner()` is used, so the
counter starts at 1. -/
def process_worksheet_group_ids (token_smash_final : List (Nat × String)) :
    Nat → Option Nat :=
  let token_smash_pairs := token_smash_final.flatMap
    (fun pr =>
      if pr.2 ≠ "" then (splitOnPipe pr.2).map (fun s => (pr.1, s)) else [])
  assign_group_ids token_smash_pairs 1

/-! ### worksheet_consume.py

The database is modelled as four lists of rows (insertion order kept;
auto-increment surrogate keys are dropped).  Polymorphic single-table
inheritance is modelled by the discriminator string each subclass
writes: `PersonWhiteList` rows carry `EntityType = "person_whitelist"`,
`PersonUnmerge` rows carry `entity_type = "person_unmerge"`, and so on;
the consumer builds those tags from its `entity_type` argument
(`"person"` or `"organization"`).  Each SQLAlchemy bulk insert is an
append, each `query(...).delete()` a filter.  `consume` models the
success path of the two transactions; timestamps (`datetime.now()`) are
an explicit `now` argument. -/

/-- A `WhiteList` row: P20ID, JobID, polymorphic discriminator. -/
structure WRow where
  P20ID : Nat
  JobID : Nat
  EntityType : String
deriving DecidableEq, Repr

/-- A `BlackList` row: the two TokenIDs, JobID, discriminator. -/
structure BRow where
  TokenID_1 : Nat
  TokenID_2 : Nat
  JobID : Nat
  EntityType : String
deriving DecidableEq, Repr

/-- An `InvalidSSN` row: TokenID, normalized SSN, JobID. -/
structure IRow where
  TokenID : Nat
  SSN : String
  JobID : Nat
deriving DecidableEq, Repr

/-- An `Unmerge` row: TokenID, GroupID label, JobID, creation time,
polymorphic discriminator. -/
structure URow where
  TokenID : Nat
  GroupID : String
  JobID : Nat
  CreateDT : Nat
  entityType : String
deriving DecidableEq, Repr

/-- The classification-table state the pipeline reads and writes. -/
structure DBState where
  whitelist : List WRow
  blacklist : List BRow
  invalidSSN : List IRow
  unmerge : List URow
deriving DecidableEq, Repr

/-- One reviewed-worksheet row, restricted to the six required columns.
`GroupID` and `SSN` are read as text (`dtype=str`), blank cells being
pandas nulls (`none`); `DoNotMerge` and `InvalidSSN` are numeric with
possible nulls. -/
structure WSRow where
  P20ID : Nat
  TokenID : Nat
  GroupID : Option String
  DoNotMerge : Option Int
  InvalidSSN : Option Int
  SSN : Option String
deriving DecidableEq, Repr

/-- `UnmergeWorksheetConsumer.truncate_tables`: delete the `Unmerge`
rows whose discriminator equals `f"{entity_type}_unmerge"`.  Nothing
else is touched. -/
def truncate_tables (st : DBState) (entity_type : String) : DBState :=
  { st with
      unmerge := st.unmerge.filter (fun u => u.entityType ≠ entity_type ++ "_unmerge") }

/-- The worksheet rows with a null GroupID (`df[df["GroupID"].isnull()]`). -/
def noGroupRows (ws : List WSRow) : List WSRow :=
  ws.filter (fun r => r.GroupID.isNone)

/-- The distinct P20IDs of the null-GroupID rows, first occurrences
first (`drop_duplicates`). -/
def whitelistP20IDs (ws : List WSRow) : List Nat :=
  ((noGroupRows ws).map (fun r => r.P20ID)).dedup

/-- The distinct TokenIDs of the null-GroupID rows. -/
def noGroupTokenIDs (ws : List WSRow) : List Nat :=
  ((noGroupRows ws).map (fun r => r.TokenID)).dedup

/-- `UnmergeWorksheetConsumer.process_whitelist`: append one whitelist
row per distinct null-GroupID P20ID, then delete every `BlackList` row —
of either entity kind, the query is on the base class — that references
any null-GroupID TokenID in either position. -/
def process_whitelist (st : DBState) (ws : List WSRow) (entity_type : String)
    (job_id : Nat) : DBState :=
  let toks := noGroupTokenIDs ws
  { st with
      whitelist := st.whitelist ++ (whitelistP20IDs ws).map
        (fun p => ⟨p, job_id, entity_type ++ "_whitelist"⟩),
      blacklist := st.blacklist.filter
        (fun b => !(toks.contains b.TokenID_1 || toks.contains b.TokenID_2)) }

/-- The do-not-merge pairs of one P20ID's rows: with exactly one
`DoNotMerge == 1` row and at least one `DoNotMerge == 2` row, pair the
code-1 TokenID with each code-2 TokenID; otherwise no pairs. -/
def dnmPairsOfGroup (group : List WSRow) : List (Nat × Nat) :=
  let dnm1 := group.filter (fun r => r.DoNotMerge == some 1)
  let dnm2 := group.filter (fun r => r.DoNotMerge == some 2)
  match dnm1 with
  | [r1] => if dnm2.length ≥ 1 then dnm2.map (fun r2 => (r1.TokenID, r2.TokenID)) else []
  | _ => []

/-- All do-not-merge pairs of the worksheet.  pandas `groupby("P20ID")`
visits the groups in ascending key order. -/
def dnmPairs (ws : List WSRow) : List (Nat × Nat) :=
  let p20s := ((ws.map (fun r => r.P20ID)).dedup).insertionSort (· ≤ ·)
  p20s.flatMap (fun p => dnmPairsOfGroup (ws.filter (fun r => r.P20ID == p)))

/-- `UnmergeWorksheetConsumer.process_do_not_merge_pairs`: collapse
duplicate pairs (`list(set(pairs))` — Python set order is unspecified;
first-occurrence order is used here, and no claim depends on the
order) and append one blacklist row per remaining pair. -/
def process_do_not_merge_pairs (st : DBState) (ws : List WSRow)
    (entity_type : String) (job_id : Nat) : DBState :=
  { st with
      blacklist := st.blacklist ++ ((dnmPairs ws).dedup).map
        (fun pr => ⟨pr.1, pr.2, job_id, entity_type ++ "_blacklist"⟩) }

/-- `UnmergeWorksheetConsumer.process_invalid_ssn`: for each row flagged
`InvalidSSN == 1`, normalize the SSN; rows whose SSN fails to normalize
to 9 digits are skipped. -/
def process_invalid_ssn (st : DBState) (ws : List WSRow) (job_id : Nat) : DBState :=
  { st with
      invalidSSN := st.invalidSSN ++
        (ws.filter (fun r => r.InvalidSSN == some 1)).filterMap
          (fun r => (clean_ssn r.SSN).map (fun s => ⟨r.TokenID, s, job_id⟩)) }

/-- pandas `drop_duplicates(subset=["TokenID"])`: keep a row exactly
when no earlier row has the same TokenID. -/
def dedupByTokenAux (seen : List Nat) : List WSRow → List WSRow
  | [] => []
  | r :: rs =>
    if seen.contains r.TokenID then dedupByTokenAux seen rs
    else r :: dedupByTokenAux (r.TokenID :: seen) rs

/-- `UnmergeWorksheetConsumer.load_unmerge_records`: the rows with a
non-null GroupID, deduplicated by TokenID, appended to the unmerge table
with the run's JobID, the current time and the kind's discriminator. -/
def load_unmerge_records (st : DBState) (ws : List WSRow) (entity_type : String)
    (job_id : Nat) (now : Nat) : DBState :=
  { st with
      unmerge := st.unmerge ++
        (dedupByTokenAux [] (ws.filter (fun r => r.GroupID.isSome))).map
          (fun r => ⟨r.TokenID, r.GroupID.getD "", job_id, now, entity_type ++ "_unmerge"⟩) }

/-- `UnmergeWorksheetConsumer.consume`, success path: Phase 1 truncates
and commits; Phase 2 loads the worksheet and runs the four processing
steps in order, committing together. -/
def consume (st : DBState) (ws : List WSRow) (entity_type : String)
    (job_id : Nat) (now : Nat) : DBState :=
  let st1 := truncate_tables st entity_type
  let st2 := process_whitelist st1 ws entity_type job_id
  let st3 := process_do_not_merge_pairs st2 ws entity_type job_id
  let st4 := process_invalid_ssn st3 ws job_id
  load_unmerge_records st4 ws entity_type job_id now

/-! ## Theorems -/

/-- (String.mk l).toList unfolds to l. -/
theorem toList_mk (l : List Char) : (String.mk l).toList = l := rfl

/-- C9 (corrected: the two marker characters must differ — with
`presentChar = absentChar` the encoded 0-bits decode to 1).  For every
0/1 sequence and distinct marker characters, decoding the encoded
string with the same present marker returns the sequence, and the
encoded string has the sequence's length. -/
theorem codec_roundtrip (seq : List Nat) (presentChar absentChar : Char)
    (hne : presentChar ≠ absentChar) (hbits : ∀ b ∈ seq, b = 0 ∨ b = 1) :
    convert_string_to_bitarray
        (convert_bitarray_to_string seq presentChar absentChar) presentChar = seq ∧
    (convert_bitarray_to_string seq presentChar absentChar).length = seq.length := by
  constructor
  · unfold convert_string_to_bitarray convert_bitarray_to_string
    rw [toList_mk, List.map_map]
    induction seq with
    | nil => rfl
    | cons b bs ih =>
      have hb := hbits b (by simp)
      have hbs : ∀ x ∈ bs, x = 0 ∨ x = 1 := fun x hx => hbits x (by simp [hx])
      simp only [List.map_cons, Function.comp_apply, ih hbs, List.cons.injEq, and_true]
      rcases hb with h0 | h1
      · subst h0
        simp [Ne.symm hne, beq_iff_eq]
      · subst h1
        simp
  · unfold convert_bitarray_to_string
    simp [String.length]

/-- Witness for `codec_roundtrip` at a concrete sequence and markers. -/
theorem codec_roundtrip_witness :
    convert_string_to_bitarray (convert_bitarray_to_string [1, 0] '#' '_') '#' = [1, 0] ∧
    (convert_bitarray_to_string [1, 0] '#' '_').length = 2 :=
  codec_roundtrip [1, 0] '#' '_' (by decide) (by decide)

/-- C9, counterexample to the claim as stated: with equal marker
characters the round trip fails on the sequence `[0]`. -/
theorem codec_roundtrip_cex :
    convert_string_to_bitarray (convert_bitarray_to_string [0] '#' '#') '#' ≠ [0] := by
  decide

/-- C10 (confirmed): a row whose begin date is absent is discarded by
the begin-date-versus-August-31-anchor filter, so every row that
survives preprocessing — the only rows the end-date default is applied
to, and the only rows that reach bitmap computation — has a begin date
(and, after the default, an end date). -/
theorem preprocess_data_requires_begin (k12_df : List K12Row) :
    (∀ r ∈ k12_df, r.EnrollmentBeginDT = none → k12KeepRow r = false) ∧
    (∀ r ∈ preprocess_data k12_df,
      r.EnrollmentBeginDT.isSome ∧ r.EnrollmentEndDT.isSome) := by
  constructor
  · intro r _ h
    simp [k12KeepRow, h]
  · intro r hr
    unfold preprocess_data at hr
    rcases List.mem_map.mp hr with ⟨r₀, hr₀, rfl⟩
    rcases List.mem_filter.mp hr₀ with ⟨_, hkeep⟩
    constructor
    · unfold k12KeepRow at hkeep
      unfold k12FillEnd
      cases h : r₀.EnrollmentBeginDT with
      | none => rw [h] at hkeep; exact absurd hkeep (by simp)
      | some b => simp [h]
    · simp [k12FillEnd]

/-- Witness for `preprocess_data_requires_begin` at a concrete frame:
the null-begin row is rejected by the filter, and the surviving row of
the preprocessed frame has both dates. -/
theorem preprocess_data_requires_begin_witness :
    k12KeepRow ⟨1, 2000, none, none⟩ = false ∧
    ((preprocess_data [⟨1, 2000, none, none⟩, ⟨1, 2000, some ⟨2000, 5, 1⟩, none⟩]).head?
        = some ⟨1, 2000, some ⟨2000, 5, 1⟩, some ⟨1999, 9, 1⟩⟩ ∧
      ∀ r ∈ preprocess_data [⟨1, 2000, none, none⟩, ⟨1, 2000, some ⟨2000, 5, 1⟩, none⟩],
        r.EnrollmentBeginDT.isSome) := by
  refine ⟨?_, by decide, ?_⟩
  · exact (preprocess_data_requires_begin
      [⟨1, 2000, none, none⟩, ⟨1, 2000, some ⟨2000, 5, 1⟩, none⟩]).1
      ⟨1, 2000, none, none⟩ (by decide) rfl
  · intro r hr
    exact ((preprocess_data_requires_begin
      [⟨1, 2000, none, none⟩, ⟨1, 2000, some ⟨2000, 5, 1⟩, none⟩]).2 r hr).1

/-- C1 (corrected: Phase 1 deletes only the *unmerge* rows of the run's
entity kind; whitelist and blacklist rows are not touched by the
truncation).  The truncation transaction removes exactly the unmerge
rows whose discriminator is the run's kind and preserves everything
else. -/
theorem truncate_tables_scope (st : DBState) (entity_type : String) :
    (truncate_tables st entity_type).whitelist = st.whitelist ∧
    (truncate_tables st entity_type).blacklist = st.blacklist ∧
    (truncate_tables st entity_type).invalidSSN = st.invalidSSN ∧
    (∀ u ∈ st.unmerge, u.entityType = entity_type ++ "_unmerge" →
      u ∉ (truncate_tables st entity_type).unmerge) ∧
    (∀ u ∈ st.unmerge, u.entityType ≠ entity_type ++ "_unmerge" →
      u ∈ (truncate_tables st entity_type).unmerge) := by
  refine ⟨rfl, rfl, rfl, ?_, ?_⟩
  · intro u _ hu hmem
    rcases List.mem_filter.mp hmem with ⟨_, hne⟩
    simp only [decide_eq_true_eq] at hne
    exact hne hu
  · intro u hu hne
    exact List.mem_filter.mpr ⟨hu, by simpa using hne⟩

/-- Witness for `truncate_tables_scope`: a person-kind unmerge row is
removed, an organization-kind one survives, the whitelist row stays. -/
theorem truncate_tables_scope_witness :
    (truncate_tables
        ⟨[⟨5, 9, "person_whitelist"⟩], [], [],
          [⟨7, "1", 9, 0, "person_unmerge"⟩, ⟨8, "1", 9, 0, "organization_unmerge"⟩]⟩
        "person").whitelist = [⟨5, 9, "person_whitelist"⟩] ∧
    ⟨7, "1", 9, 0, "person_unmerge"⟩ ∉
      (truncate_tables
        ⟨[⟨5, 9, "person_whitelist"⟩], [], [],
          [⟨7, "1", 9, 0, "person_unmerge"⟩, ⟨8, "1", 9, 0, "organization_unmerge"⟩]⟩
        "person").unmerge ∧
    ⟨8, "1", 9, 0, "organization_unmerge"⟩ ∈
      (truncate_tables
        ⟨[⟨5, 9, "person_whitelist"⟩], [], [],
          [⟨7, "1", 9, 0, "person_unmerge"⟩, ⟨8, "1", 9, 0, "organization_unmerge"⟩]⟩
        "person").unmerge := by
  have h := truncate_tables_scope
    ⟨[⟨5, 9, "person_whitelist"⟩], [], [],
      [⟨7, "1", 9, 0, "person_unmerge"⟩, ⟨8, "1", 9, 0, "organization_unmerge"⟩]⟩
    "person"
  exact ⟨h.1, h.2.2.2.1 _ (by decide) (by decide), h.2.2.2.2 _ (by decide) (by decide)⟩

/-- C1, counterexample to the claim as stated: after Phase 1 on the
person kind, a whitelist row and a blacklist row previously produced
for that kind are still present — only the unmerge rows are gone. -/
theorem truncate_tables_cex :
    truncate_tables
        ⟨[⟨5, 9, "person_whitelist"⟩], [⟨1, 2, 9, "person_blacklist"⟩], [],
          [⟨7, "1", 9, 0, "person_unmerge"⟩]⟩ "person"
      = ⟨[⟨5, 9, "person_whitelist"⟩], [⟨1, 2, 9, "person_blacklist"⟩], [], []⟩ ∧
    ([⟨5, 9, "person_whitelist"⟩] : List WRow) ≠ [] := by
  decide

/-- Concrete empty database state, for witnesses and counterexamples. -/
def emptyDB : DBState := ⟨[], [], [], []⟩

/-- Concrete worksheet: identity 1 with one null-GroupID row (Token 10)
and one grouped row (Token 11), no do-not-merge codes. -/
def wsMixed : List WSRow :=
  [⟨1, 10, none, none, none, none⟩, ⟨1, 11, some "3", none, none, none⟩]

/-- Concrete worksheet: identity 1 with a null-GroupID row carrying
do-not-merge code 1 (Token 10) and a grouped row carrying code 2
(Token 11). -/
def wsDnmNull : List WSRow :=
  [⟨1, 10, none, some 1, none, none⟩, ⟨1, 11, some "3", some 2, none, none⟩]

/-- Concrete worksheet: identity 1 fully grouped, with one
do-not-merge pair (Token 10 code 1, Token 11 code 2). -/
def wsDnmPair : List WSRow :=
  [⟨1, 10, some "1", some 1, none, none⟩, ⟨1, 11, some "3", some 2, none, none⟩]

/-- The whitelist table after `consume`: the prior rows followed by one
row per distinct null-GroupID P20ID. -/
theorem consume_whitelist_eq (st : DBState) (ws : List WSRow) (et : String)
    (j now : Nat) :
    (consume st ws et j now).whitelist =
      st.whitelist ++ (whitelistP20IDs ws).map (fun p => ⟨p, j, et ++ "_whitelist"⟩) :=
  rfl

/-- The blacklist table after `consume`: the prior rows not touching a
null-GroupID TokenID, followed by the deduplicated do-not-merge pairs. -/
theorem consume_blacklist_eq (st : DBState) (ws : List WSRow) (et : String)
    (j now : Nat) :
    (consume st ws et j now).blacklist =
      st.blacklist.filter
        (fun b => !((noGroupTokenIDs ws).contains b.TokenID_1 ||
                    (noGroupTokenIDs ws).contains b.TokenID_2)) ++
      ((dnmPairs ws).dedup).map (fun pr => ⟨pr.1, pr.2, j, et ++ "_blacklist"⟩) :=
  rfl

/-- The unmerge table after `consume`: the prior rows of other kinds,
followed by the kind-tagged rows rebuilt from the worksheet. -/
theorem consume_unmerge_eq (st : DBState) (ws : List WSRow) (et : String)
    (j now : Nat) :
    (consume st ws et j now).unmerge =
      st.unmerge.filter (fun u => u.entityType ≠ et ++ "_unmerge") ++
      (dedupByTokenAux [] (ws.filter (fun r => r.GroupID.isSome))).map
        (fun r => ⟨r.TokenID, r.GroupID.getD "", j, now, et ++ "_unmerge"⟩) :=
  rfl

/-- C3 (corrected: a whitelist entry is recorded for an Identity id iff
*some* — not every — worksheet row carrying it has a null GroupID).
The P20IDs appended to the whitelist by a run are exactly the P20IDs
with at least one null-GroupID row, each recorded at most (hence, when
recorded, exactly) once. -/
theorem whitelist_record_iff (st : DBState) (ws : List WSRow) (et : String)
    (j now p : Nat) :
    (p ∈ (((consume st ws et j now).whitelist.drop st.whitelist.length).map WRow.P20ID) ↔
      ∃ r ∈ ws, r.P20ID = p ∧ r.GroupID = none) ∧
    ((((consume st ws et j now).whitelist.drop st.whitelist.length).map WRow.P20ID).count p ≤ 1) := by
  rw [consume_whitelist_eq, List.drop_left]
  have hmap : ((whitelistP20IDs ws).map
      (fun p => (⟨p, j, et ++ "_whitelist"⟩ : WRow))).map WRow.P20ID = whitelistP20IDs ws := by
    rw [List.map_map]; exact List.map_id _
  rw [hmap]
  constructor
  · unfold whitelistP20IDs noGroupRows
    simp only [List.mem_dedup, List.mem_map, List.mem_filter, Option.isNone_iff_eq_none]
    constructor
    · rintro ⟨r, ⟨hr, hnull⟩, rfl⟩
      exact ⟨r, hr, rfl, hnull⟩
    · rintro ⟨r, hr, rfl, hnull⟩
      exact ⟨r, ⟨hr, hnull⟩, rfl⟩
  · exact List.nodup_iff_count_le_one.mp (List.nodup_dedup _) p

/-- Witness for `whitelist_record_iff`: identity 1 has a null-GroupID
row and is recorded; identity 2 has none and is not. -/
theorem whitelist_record_iff_witness :
    (1 ∈ (((consume emptyDB wsMixed "person" 7 0).whitelist.drop
        emptyDB.whitelist.length).map WRow.P20ID)) ∧
    (((consume emptyDB wsMixed "person" 7 0).whitelist.drop
        emptyDB.whitelist.length).map WRow.P20ID).count 1 ≤ 1 := by
  have h := whitelist_record_iff emptyDB wsMixed "person" 7 0 1
  exact ⟨h.1.mpr ⟨⟨1, 10, none, none, none, none⟩, by decide, rfl, rfl⟩, h.2⟩

/-- C3, counterexample to the claim as stated: identity 1 has one
null-GroupID row and one non-null row — not *every* row null — yet a
whitelist entry is recorded for it. -/
theorem whitelist_record_cex :
    (consume emptyDB wsMixed "person" 7 0).whitelist.map WRow.P20ID = [1] ∧
    ¬ (∀ r ∈ wsMixed, r.P20ID = 1 → r.GroupID = none) := by
  decide

/-- C4 (corrected: the run deletes every *pre-existing* blacklist pair
that references a null-GroupID Token, but the do-not-merge step runs
afterwards and can insert new pairs referencing Tokens of whitelisted
identities; also only the Tokens appearing in null-GroupID rows are
scrubbed, not every Token of a whitelisted identity).  After Phase 2,
any blacklist pair referencing a Token from a null-GroupID worksheet
row is one of the pairs inserted by this run's do-not-merge step. -/
theorem blacklist_scrub (st : DBState) (ws : List WSRow) (et : String)
    (j now : Nat) :
    ∀ b ∈ (consume st ws et j now).blacklist,
      ((noGroupTokenIDs ws).contains b.TokenID_1 ||
        (noGroupTokenIDs ws).contains b.TokenID_2) = true →
      b ∈ ((dnmPairs ws).dedup).map
        (fun pr => (⟨pr.1, pr.2, j, et ++ "_blacklist"⟩ : BRow)) := by
  intro b hb htouch
  rw [consume_blacklist_eq] at hb
  rcases List.mem_append.mp hb with hold | hnew
  · rcases List.mem_filter.mp hold with ⟨_, hkeep⟩
    rw [htouch] at hkeep
    exact absurd hkeep (by decide)
  · exact hnew

/-- Witness for `blacklist_scrub`: the one pair touching the
null-GroupID Token 10 that survives the run is recognized as a pair the
run's do-not-merge step inserted. -/
theorem blacklist_scrub_witness :
    (⟨10, 11, 7, "person_blacklist"⟩ : BRow) ∈
      ((dnmPairs wsDnmNull).dedup).map
        (fun pr => (⟨pr.1, pr.2, 7, "person" ++ "_blacklist"⟩ : BRow)) :=
  blacklist_scrub ⟨[], [⟨10, 99, 3, "person_blacklist"⟩], [], []⟩ wsDnmNull
    "person" 7 0 ⟨10, 11, 7, "person_blacklist"⟩ (by decide) (by decide)

/-- C4, counterexample to the claim as stated: identity 1 is
whitelisted (its row for Token 10 has a null GroupID), yet after the
run the blacklist contains the pair (10, 11), whose first position is
Token 10 of that whitelisted identity — the do-not-merge step inserted
it after the scrub. -/
theorem blacklist_scrub_cex :
    (consume emptyDB wsDnmNull "person" 7 0).whitelist.map WRow.P20ID = [1] ∧
    (∃ r ∈ wsDnmNull, r.P20ID = 1 ∧ r.TokenID = 10) ∧
    (∃ b ∈ (consume emptyDB wsDnmNull "person" 7 0).blacklist,
      b.TokenID_1 = 10 ∨ b.TokenID_2 = 10) := by
  decide

/-- C2 (corrected: only the unmerge table is idempotently replaced;
whitelist, blacklist and invalid-SSN inserts are cumulative, so a
second run appends duplicate rows there).  Running `consume` twice with
the same worksheet, kind, job id and clock leaves the unmerge table
exactly as one run leaves it. -/
theorem consume_unmerge_idempotent (st : DBState) (ws : List WSRow) (et : String)
    (j now : Nat) :
    (consume (consume st ws et j now) ws et j now).unmerge =
      (consume st ws et j now).unmerge := by
  have h2 : ((dedupByTokenAux [] (ws.filter (fun r => r.GroupID.isSome))).map
      (fun r => (⟨r.TokenID, r.GroupID.getD "", j, now, et ++ "_unmerge"⟩ : URow))).filter
        (fun u => decide (u.entityType ≠ et ++ "_unmerge")) = [] := by
    rw [List.filter_eq_nil_iff]
    intro u hu
    rcases List.mem_map.mp hu with ⟨r, _, rfl⟩
    simp
  rw [consume_unmerge_eq, consume_unmerge_eq, List.filter_append, List.filter_filter]
  simp only [Bool.and_self]
  rw [h2, List.append_nil]

/-- C2, counterexample to the claim as stated: a worksheet with one
do-not-merge pair and no null-GroupID rows; both runs complete, but the
second run appends the same blacklist pair again, so the final
classification state differs from a single run's. -/
theorem consume_idempotent_cex :
    (consume (consume emptyDB wsDnmPair "person" 7 0) wsDnmPair "person" 7 0) ≠
      (consume emptyDB wsDnmPair "person" 7 0) ∧
    (consume (consume emptyDB wsDnmPair "person" 7 0)
        wsDnmPair "person" 7 0).blacklist.length = 2 ∧
    (consume emptyDB wsDnmPair "person" 7 0).blacklist.length = 1 := by
  decide

/-- `firstNZ` finds nothing exactly when every column is all-zero. -/
theorem firstNZ_eq_none {l : List (List (Option (List Nat)))} :
    firstNZ l = none ↔ ∀ c ∈ l, colZero c = true := by
  induction l with
  | nil => simp [firstNZ]
  | cons c cs ih =>
    cases hc : colZero c with
    | true => simp [firstNZ, hc, ih]
    | false => simp [firstNZ, hc]

/-- A found first-nonzero index is in range. -/
theorem firstNZ_lt_length {l : List (List (Option (List Nat)))} {i : Nat}
    (h : firstNZ l = some i) : i < l.length := by
  induction l generalizing i with
  | nil => simp [firstNZ] at h
  | cons c cs ih =>
    cases hc : colZero c with
    | true =>
      rw [firstNZ, hc, if_pos rfl] at h
      rcases Option.map_eq_some'.mp h with ⟨j, hj, rfl⟩
      simpa using Nat.succ_lt_succ (ih hj)
    | false =>
      rw [firstNZ, hc] at h
      simp only [Bool.false_eq_true, if_false, Option.some.injEq] at h
      subst h
      simp

/-- Dropping up to the first nonzero column is dropping the leading
all-zero run. -/
theorem firstNZ_drop {l : List (List (Option (List Nat)))} {i : Nat}
    (h : firstNZ l = some i) : l.drop i = l.dropWhile colZero := by
  induction l generalizing i with
  | nil => simp [firstNZ] at h
  | cons c cs ih =>
    cases hc : colZero c with
    | true =>
      rw [firstNZ, hc, if_pos rfl] at h
      rcases Option.map_eq_some'.mp h with ⟨j, hj, rfl⟩
      rw [List.drop_succ_cons, List.dropWhile_cons, hc, if_pos rfl]
      exact ih hj
    | false =>
      rw [firstNZ, hc] at h
      simp only [Bool.false_eq_true, if_false, Option.some.injEq] at h
      subst h
      rw [List.drop_zero, List.dropWhile_cons, hc]
      simp

/-- Every column before the first nonzero one is all-zero. -/
theorem firstNZ_take_zero {l : List (List (Option (List Nat)))} {i : Nat}
    (h : firstNZ l = some i) : ∀ c ∈ l.take i, colZero c = true := by
  induction l generalizing i with
  | nil => simp
  | cons c cs ih =>
    cases hc : colZero c with
    | true =>
      rw [firstNZ, hc, if_pos rfl] at h
      rcases Option.map_eq_some'.mp h with ⟨j, hj, rfl⟩
      intro d hd
      rcases List.mem_cons.mp (by simpa [List.take_succ_cons] using hd) with rfl | hd'
      · exact hc
      · exact ih hj d hd'
    | false =>
      rw [firstNZ, hc] at h
      simp only [Bool.false_eq_true, if_false, Option.some.injEq] at h
      subst h
      simp

/-- The first nonzero index of a prefix is the first nonzero index of
the whole list. -/
theorem firstNZ_append_left {a b : List (List (Option (List Nat)))} {i : Nat}
    (h : firstNZ a = some i) : firstNZ (a ++ b) = some i := by
  induction a generalizing i with
  | nil => simp [firstNZ] at h
  | cons c cs ih =>
    cases hc : colZero c with
    | true =>
      rw [firstNZ, hc, if_pos rfl] at h
      rcases Option.map_eq_some'.mp h with ⟨j, hj, rfl⟩
      rw [List.cons_append, firstNZ, hc, if_pos rfl, ih hj]
      rfl
    | false =>
      rw [firstNZ, hc] at h
      rw [List.cons_append, firstNZ, hc]
      exact h

/-- C7 (corrected: when *every* school-year column is all-zero the
loops never break, the slice bounds default to the full range, and the
pivot is returned unchanged — not empty).  When every column is
all-zero, trimming returns the pivot as is; when some column has an
enrollment, trimming removes exactly the trailing and then the leading
run of all-zero columns (so interior all-zero columns are kept). -/
theorem trim_characterization (cols : List (List (Option (List Nat)))) :
    ((∀ c ∈ cols, colZero c = true) → trim_non_enrollment_years cols = cols) ∧
    ((∃ c ∈ cols, colZero c = false) →
      trim_non_enrollment_years cols =
        ((cols.reverse.dropWhile colZero).reverse).dropWhile colZero) := by
  constructor
  · intro hall
    have h0 : firstNZ cols = none := firstNZ_eq_none.mpr hall
    have h0r : firstNZ cols.reverse = none :=
      firstNZ_eq_none.mpr (fun c hc => hall c (List.mem_reverse.mp hc))
    unfold trim_non_enrollment_years lastNZ
    rw [h0, h0r]
    simp only [Option.map_none', Option.getD_none, List.drop_zero]
    cases cols with
    | nil => rfl
    | cons c cs =>
      rw [Nat.sub_add_cancel (by simp), List.take_length]
  · rintro ⟨c0, hc0, hc0z⟩
    obtain ⟨fi, hfi⟩ : ∃ fi, firstNZ cols = some fi := by
      cases h : firstNZ cols with
      | none =>
        rw [firstNZ_eq_none.mp h c0 hc0] at hc0z
        exact absurd hc0z (by simp)
      | some j => exact ⟨j, rfl⟩
    obtain ⟨k, hk⟩ : ∃ k, firstNZ cols.reverse = some k := by
      cases h : firstNZ cols.reverse with
      | none =>
        rw [firstNZ_eq_none.mp h c0 (List.mem_reverse.mpr hc0)] at hc0z
        exact absurd hc0z (by simp)
      | some j => exact ⟨j, rfl⟩
    have hkn : k < cols.length := by simpa using firstNZ_lt_length hk
    have hdropk : cols.reverse.drop k = cols.reverse.dropWhile colZero :=
      firstNZ_drop hk
    have htake : cols.take (cols.length - k) = (cols.reverse.drop k).reverse := by
      have h1 : (cols.take (cols.length - k)).reverse = cols.reverse.drop k := by
        rw [List.reverse_take]
        congr 1
        omega
      rw [← h1, List.reverse_reverse]
    have hsplit : cols = (cols.reverse.drop k).reverse ++ (cols.reverse.take k).reverse := by
      conv_lhs => rw [← List.reverse_reverse cols]
      conv_lhs => rw [← List.take_append_drop k cols.reverse]
      rw [List.reverse_append]
    have hXfi : firstNZ ((cols.reverse.drop k).reverse) = some fi := by
      cases hx : firstNZ ((cols.reverse.drop k).reverse) with
      | none =>
        have hallz : ∀ c ∈ cols, colZero c = true := by
          intro c hc
          rw [hsplit] at hc
          rcases List.mem_append.mp hc with h | h
          · exact firstNZ_eq_none.mp hx c h
          · exact firstNZ_take_zero hk c (List.mem_reverse.mp h)
        rw [firstNZ_eq_none.mpr hallz] at hfi
        exact absurd hfi (by simp)
      | some j =>
        have hj := firstNZ_append_left (b := (cols.reverse.take k).reverse) hx
        rw [← hsplit, hfi] at hj
        exact hj.symm
    unfold trim_non_enrollment_years lastNZ
    rw [hfi, hk]
    simp only [Option.map_some', Option.getD_some]
    rw [show cols.length - 1 - k + 1 = cols.length - k from by omega, htake,
      ← hdropk]
    exact firstNZ_drop hXfi

/-- Witness for `trim_characterization`: an all-zero pivot is returned
unchanged; a pivot with an enrolled column on each side of an interior
all-zero column loses exactly its all-zero margins. -/
theorem trim_characterization_witness :
    trim_non_enrollment_years [[some [0]], [none]] = [[some [0]], [none]] ∧
    trim_non_enrollment_years
        [[some [0]], [some [1]], [some [0]], [some [1]], [some [0]]] =
      (((([[some [0]], [some [1]], [some [0]], [some [1]], [some [0]]] :
          List (List (Option (List Nat)))).reverse.dropWhile
            colZero)).reverse).dropWhile colZero := by
  exact ⟨(trim_characterization _).1 (by decide),
    (trim_characterization _).2 ⟨[some [1]], by decide, by decide⟩⟩

/-- C7, counterexample to the claim as stated: a pivot whose two
columns are both all-zero comes back unchanged — two columns, not the
empty result the claim requires. -/
theorem trim_cex :
    (∀ c ∈ ([[some [0, 0]], [none]] : List (List (Option (List Nat)))),
      colZero c = true) ∧
    trim_non_enrollment_years [[some [0, 0]], [none]] = [[some [0, 0]], [none]] ∧
    trim_non_enrollment_years [[some [0, 0]], [none]] ≠ [] := by
  decide

/-- Concrete wage frame: two rows in the same (Token, year, quarter)
cell that survive deduplication because their hours differ; the first
has amount 0, the second amount 100. -/
def wageDup : List WageRow :=
  [⟨1, 2000, "1", 1, 0⟩, ⟨1, 2000, "1", 2, 100⟩]

/-- C8 (corrected: the pivot aggregates each (Token, year, quarter)
cell with *first*, not *any* — the bit reflects the first row of the
cell in input order, and later rows with positive amounts are ignored).
The presence bit is 1 iff the first row for that Token, year and
quarter among the normalized, deduplicated quarter rows has
amount > 0. -/
theorem presenceBit_first_row (df : List WageRow) (t : Nat) (y : Int) (q : String) :
    presenceBit df t y q = true ↔
      ∃ r pre post, quarterRows df = pre ++ r :: post ∧
        wageCellMatch t y q r = true ∧
        (∀ r' ∈ pre, wageCellMatch t y q r' = false) ∧
        r.WageAMT > 0 := by
  unfold presenceBit
  cases hf : (quarterRows df).find? (wageCellMatch t y q) with
  | none =>
    dsimp only
    constructor
    · intro h
      exact absurd h (by simp)
    · rintro ⟨r, pre, post, hsplit, hmatch, hpre, hamt⟩
      have hno := List.find?_eq_none.mp hf r (by rw [hsplit]; simp)
      exact absurd hmatch hno
  | some r0 =>
    dsimp only
    constructor
    · intro hamt
      rcases List.find?_eq_some.mp hf with ⟨hmatch0, pre, post, hsplit, hpre⟩
      exact ⟨r0, pre, post, hsplit, hmatch0,
        fun r' hr' => by simpa using hpre r' hr', of_decide_eq_true hamt⟩
    · rintro ⟨r, pre, post, hsplit, hmatch, hpre, hamt⟩
      have hr : (quarterRows df).find? (wageCellMatch t y q) = some r :=
        List.find?_eq_some.mpr ⟨hmatch, pre, post, hsplit,
          fun a ha => by simp [hpre a ha]⟩
      rw [hf] at hr
      injection hr with h
      subst h
      exact decide_eq_true hamt

/-- C8, counterexample to the claim as stated: in `wageDup` the first
row of the (1, 2000, quarter 1) cell has amount 0, so the presence bit
is 0 even though another (deduplicated, normalized) row of that cell
has amount 100 > 0. -/
theorem presenceBit_cex :
    presenceBit wageDup 1 2000 "1" = false ∧
    (∃ r ∈ housekeep wageDup, r.TokenID = 1 ∧ r.OrganizationYear = 2000 ∧
      r.TermTypeCD = "1" ∧ r.WageAMT > 0) := by
  decide

/-- A non-empty string has positive length. -/
theorem string_pos_of_ne_empty {s : String} (h : s ≠ "") : 0 < s.length := by
  cases s with
  | mk data =>
    cases data with
    | nil => exact absurd rfl h
    | cons c cs => simp [String.length]

/-- A winning comparison means at least as long. -/
theorem smashBetter_length {a b : String} (h : smashBetter a b = true) :
    b.length ≤ a.length := by
  simp only [smashBetter, Bool.or_eq_true, Bool.and_eq_true, beq_iff_eq,
    decide_eq_true_eq] at h
  rcases h with h | ⟨h, _⟩
  · omega
  · omega

/-- A losing comparison means at most as long. -/
theorem smashBetter_false_length {a b : String} (h : smashBetter a b = false) :
    a.length ≤ b.length := by
  simp only [smashBetter, Bool.or_eq_false_iff, Bool.and_eq_false_iff,
    decide_eq_false_iff_not] at h
  have := h.1
  omega

/-- Folding `pickStep` from a present accumulator stays present. -/
theorem foldl_pickStep_isSome (l : List String) (acc : Option String)
    (h : acc.isSome) : (l.foldl pickStep acc).isSome := by
  induction l generalizing acc with
  | nil => exact h
  | cons a l ih =>
    rw [List.foldl_cons]
    apply ih
    cases acc with
    | none => rfl
    | some t =>
      cases hb : smashBetter a t <;> simp [pickStep, hb]

/-- An empty pick means an empty pool. -/
theorem primaryPick_eq_none {l : List String} (h : primaryPick l = none) :
    l = [] := by
  cases l with
  | nil => rfl
  | cons a l =>
    have := foldl_pickStep_isSome l (some a) rfl
    rw [show l.foldl pickStep (some a) = primaryPick (a :: l) from rfl, h] at this
    exact absurd this (by simp)

/-- The picked primary is in the pool. -/
theorem primaryPick_mem {l : List String} {p : String}
    (h : primaryPick l = some p) : p ∈ l := by
  suffices haux : ∀ (l : List String) (acc : Option String),
      l.foldl pickStep acc = some p → p ∈ l ∨ acc = some p by
    rcases haux l none h with hm | hacc
    · exact hm
    · exact absurd hacc (by simp)
  intro l
  induction l with
  | nil => intro acc h; right; exact h
  | cons a l ih =>
    intro acc h
    rw [List.foldl_cons] at h
    rcases ih _ h with hm | hacc
    · exact Or.inl (List.mem_cons_of_mem _ hm)
    · cases acc with
      | none =>
        left
        have : a = p := by simpa [pickStep] using hacc
        rw [this]
        exact List.mem_cons_self _ _
      | some t =>
        cases hb : smashBetter a t with
        | true =>
          left
          rw [pickStep, if_pos hb] at hacc
          have : a = p := by simpa using hacc
          rw [this]
          exact List.mem_cons_self _ _
        | false =>
          right
          rw [pickStep, if_neg (by simp [hb])] at hacc
          exact hacc

/-- The picked primary has maximal length in the pool. -/
theorem primaryPick_maxlen {l : List String} {p : String}
    (h : primaryPick l = some p) : ∀ s ∈ l, s.length ≤ p.length := by
  suffices haux : ∀ (l : List String) (acc : Option String),
      l.foldl pickStep acc = some p →
      (∀ s ∈ l, s.length ≤ p.length) ∧ (∀ t, acc = some t → t.length ≤ p.length) by
    exact (haux l none h).1
  intro l
  induction l with
  | nil =>
    intro acc h
    refine ⟨by simp, fun t ht => ?_⟩
    rw [ht] at h
    have : t = p := by simpa using h
    rw [this]
  | cons a l ih =>
    intro acc h
    rw [List.foldl_cons] at h
    obtain ⟨h1, h2⟩ := ih _ h
    have hstep : ∀ r, pickStep acc a = some r → r.length ≤ p.length := h2
    have ha : a.length ≤ p.length := by
      cases acc with
      | none => exact hstep a rfl
      | some t =>
        cases hb : smashBetter a t with
        | true => exact hstep a (by rw [pickStep, if_pos hb])
        | false =>
          have hat : a.length ≤ t.length := smashBetter_false_length hb
          have := hstep t (by rw [pickStep, if_neg (by simp [hb])])
          omega
    refine ⟨?_, ?_⟩
    · intro s hs
      rcases List.mem_cons.mp hs with rfl | hs'
      · exact ha
      · exact h1 s hs'
    · intro t' ht'
      subst ht'
      cases hb : smashBetter a t' with
      | true =>
        have h1' := smashBetter_length hb
        have := hstep a (by rw [pickStep, if_pos hb])
        omega
      | false => exact hstep t' (by rw [pickStep, if_neg (by simp [hb])])

/-- The primary absorbs itself. -/
theorem absorbedBy_self (p : String) : absorbedBy p p = true := by
  simp [absorbedBy]

/-- The GroupIDs allocated by the rounds are `c, c+2, c+4, …` in
discovery order. -/
theorem clusterRoundsFuel_labels (fuel : Nat) (l : List String) (c : Nat) :
    (clusterRoundsFuel fuel l c).map Prod.fst =
      (List.range (clusterRoundsFuel fuel l c).length).map (fun i => c + 2 * i) := by
  induction fuel generalizing l c with
  | zero => rfl
  | succ fuel ih =>
    cases hp : primaryPick l with
    | none => simp [clusterRoundsFuel, hp]
    | some p =>
      simp only [clusterRoundsFuel, hp, List.map_cons, List.length_cons,
        List.range_succ_eq_map, List.map_map]
      rw [ih]
      refine List.cons_eq_cons.mpr ⟨by omega, ?_⟩
      congr 1
      funext i
      simp only [Function.comp_apply]
      omega

/-- Every pool element lands in some round. -/
theorem clusterRounds_covers {fuel : Nat} {l : List String} {c : Nat} {s : String}
    (hfuel : l.length ≤ fuel) (hs : s ∈ l) :
    ∃ gs ∈ clusterRoundsFuel fuel l c, s ∈ gs.2 := by
  induction fuel generalizing l c with
  | zero =>
    rw [List.eq_nil_of_length_eq_zero (Nat.le_zero.mp hfuel)] at hs
    exact absurd hs (List.not_mem_nil s)
  | succ fuel ih =>
    obtain ⟨p, hp⟩ : ∃ p, primaryPick l = some p := by
      cases h : primaryPick l with
      | none =>
        rw [primaryPick_eq_none h] at hs
        exact absurd hs (List.not_mem_nil s)
      | some q => exact ⟨q, rfl⟩
    simp only [clusterRoundsFuel, hp]
    cases hab : absorbedBy p s with
    | true =>
      exact ⟨(c, l.filter (absorbedBy p)), List.mem_cons_self _ _,
        List.mem_filter.mpr ⟨hs, hab⟩⟩
    | false =>
      have hrest : s ∈ l.filter (fun s => !absorbedBy p s) :=
        List.mem_filter.mpr ⟨hs, by rw [hab]; rfl⟩
      have hlen : (l.filter (fun s => !absorbedBy p s)).length ≤ fuel := by
        have hlt : (l.filter (fun s => !absorbedBy p s)).length < l.length :=
          List.length_filter_lt_length_iff_exists.mpr
            ⟨p, primaryPick_mem hp, by simp [absorbedBy_self]⟩
        omega
      rcases ih hlen hrest with ⟨gs, hgs, hsgs⟩
      exact ⟨gs, List.mem_cons_of_mem _ hgs, hsgs⟩

/-- Every fingerprint of every round comes from the pool. -/
theorem clusterRounds_subset {fuel : Nat} {l : List String} {c : Nat} :
    ∀ gs ∈ clusterRoundsFuel fuel l c, ∀ s ∈ gs.2, s ∈ l := by
  induction fuel generalizing l c with
  | zero => simp [clusterRoundsFuel]
  | succ fuel ih =>
    cases hp : primaryPick l with
    | none => simp [clusterRoundsFuel, hp]
    | some p =>
      simp only [clusterRoundsFuel, hp]
      intro gs hgs s hsg
      rcases List.mem_cons.mp hgs with rfl | hgs'
      · exact (List.mem_filter.mp hsg).1
      · exact (List.mem_filter.mp (ih gs hgs' s hsg)).1

/-- A fold that keeps the label of any matching round is present as
soon as one round matches. -/
theorem foldl_label_isSome {P : Nat × List String → Bool}
    (rounds : List (Nat × List String)) (acc : Option Nat)
    (hex : (∃ gs ∈ rounds, P gs = true) ∨ acc.isSome) :
    (rounds.foldl (fun acc gs => if P gs then some gs.1 else acc) acc).isSome := by
  induction rounds generalizing acc with
  | nil =>
    rcases hex with ⟨gs, hgs, _⟩ | h
    · exact absurd hgs (List.not_mem_nil gs)
    · exact h
  | cons g rounds ih =>
    rw [List.foldl_cons]
    rcases hex with ⟨gs, hgs, hP⟩ | h
    · rcases List.mem_cons.mp hgs with rfl | hgs'
      · apply ih
        right
        rw [if_pos hP]
        rfl
      · exact ih _ (Or.inl ⟨gs, hgs', hP⟩)
    · apply ih
      right
      cases hg : P g with
      | false => simpa using h
      | true => simp

/-- A fold over rounds none of which match leaves the accumulator. -/
theorem foldl_label_const {P : Nat × List String → Bool}
    (rounds : List (Nat × List String)) (acc : Option Nat)
    (hall : ∀ gs ∈ rounds, P gs = false) :
    rounds.foldl (fun acc gs => if P gs then some gs.1 else acc) acc = acc := by
  induction rounds generalizing acc with
  | nil => rfl
  | cons g rounds ih =>
    rw [List.foldl_cons, if_neg (by simp [hall g (List.mem_cons_self _ _)])]
    exact ih _ (fun gs hgs => hall gs (List.mem_cons_of_mem _ hgs))

/-- C5 (confirmed): with a fresh assigner (counter 1), every distinct
input TokenID is mapped to exactly one GroupID — the result is a
function defined on every input TokenID — and the labels allocated to
the rounds, in discovery order, are 1, 3, 5, …: the i-th allocation is
1 + 2·i. -/
theorem assign_group_ids_partition (pairs : List (Nat × String)) :
    (∀ t ∈ pairs.map Prod.fst, (assign_group_ids pairs 1 t).isSome) ∧
    ((clusterRounds ((pairs.map Prod.snd).dedup) 1).map Prod.fst =
      (List.range (clusterRounds ((pairs.map Prod.snd).dedup) 1).length).map
        (fun i => 1 + 2 * i)) := by
  constructor
  · intro t ht
    rcases List.mem_map.mp ht with ⟨pr, hpr, hfst⟩
    simp only [assign_group_ids]
    apply foldl_label_isSome
    left
    have hsl : pr.2 ∈ (pairs.map Prod.snd).dedup :=
      List.mem_dedup.mpr (List.mem_map.mpr ⟨pr, hpr, rfl⟩)
    rcases clusterRounds_covers (le_refl _) hsl with ⟨gs, hgs, hsgs⟩
    refine ⟨gs, hgs, List.any_eq_true.mpr ⟨pr.2, hsgs, ?_⟩⟩
    exact List.elem_eq_true_of_mem
      (List.mem_map.mpr ⟨pr, List.mem_filter.mpr ⟨hpr, by simp [hfst]⟩, rfl⟩)
  · exact clusterRoundsFuel_labels _ _ _

/-- Witness for `assign_group_ids_partition` at the specification's own
example input. -/
theorem assign_group_ids_partition_witness :
    (assign_group_ids [(1, "ABC"), (2, "ABC"), (3, "AB"), (4, "XYZ")] 1 3).isSome :=
  (assign_group_ids_partition [(1, "ABC"), (2, "ABC"), (3, "AB"), (4, "XYZ")]).1
    3 (by decide)

/-- C6 (corrected: the statement holds for a Token whose only
fingerprint is the empty string when fed directly to the clusterer; but
a Token that also carries a non-empty fingerprint can be re-assigned by
a later round, and the worksheet wrapper filters empty fingerprints out
entirely, leaving such Tokens with no GroupID).  If a Token's
fingerprints are all empty, the empty fingerprint reaches the clusterer
and some non-empty fingerprint is present, then the Token is assigned
the first-allocated GroupID (counter value 1, the group of the longest
fingerprint): it neither forms its own group nor is left unassigned. -/
theorem empty_fingerprint_first_group (pairs : List (Nat × String)) (t : Nat)
    (h1 : (t, "") ∈ pairs)
    (h2 : ∀ pr ∈ pairs, pr.1 = t → pr.2 = "")
    (h3 : ∃ pr ∈ pairs, pr.2 ≠ "") :
    assign_group_ids pairs 1 t = some 1 := by
  obtain ⟨pr0, hpr0, hpr0ne⟩ := h3
  simp only [assign_group_ids]
  have hmem_empty : "" ∈ (pairs.map Prod.snd).dedup :=
    List.mem_dedup.mpr (List.mem_map.mpr ⟨(t, ""), h1, rfl⟩)
  have hs0 : pr0.2 ∈ (pairs.map Prod.snd).dedup :=
    List.mem_dedup.mpr (List.mem_map.mpr ⟨pr0, hpr0, rfl⟩)
  obtain ⟨p, hp⟩ : ∃ p, primaryPick ((pairs.map Prod.snd).dedup) = some p := by
    cases h : primaryPick ((pairs.map Prod.snd).dedup) with
    | none =>
      rw [primaryPick_eq_none h] at hmem_empty
      exact absurd hmem_empty (List.not_mem_nil _)
    | some q => exact ⟨q, rfl⟩
  have hplen : 0 < p.length :=
    lt_of_lt_of_le (string_pos_of_ne_empty hpr0ne) (primaryPick_maxlen hp _ hs0)
  have habs : absorbedBy p "" = true := by
    have hpne : (("" : String) == p) = false := by
      apply beq_eq_false_iff_ne.mpr
      intro he
      rw [← he] at hplen
      exact absurd hplen (by simp)
    simp only [absorbedBy, hpne, Bool.false_or, charSubset]
    simpa using hplen
  have hsm_all : ∀ s ∈ (pairs.filter (fun pr => pr.1 == t)).map Prod.snd, s = "" := by
    intro s hs
    rcases List.mem_map.mp hs with ⟨pr, hprf, rfl⟩
    rcases List.mem_filter.mp hprf with ⟨hprm, hbeq⟩
    exact h2 pr hprm (by simpa using hbeq)
  have hsm_mem : "" ∈ (pairs.filter (fun pr => pr.1 == t)).map Prod.snd :=
    List.mem_map.mpr ⟨(t, ""), List.mem_filter.mpr ⟨h1, by simp⟩, rfl⟩
  obtain ⟨n, hn⟩ : ∃ n, ((pairs.map Prod.snd).dedup).length = n + 1 := by
    cases hll : ((pairs.map Prod.snd).dedup).length with
    | zero =>
      rw [List.eq_nil_of_length_eq_zero hll] at hmem_empty
      exact absurd hmem_empty (List.not_mem_nil _)
    | succ n => exact ⟨n, rfl⟩
  rw [show clusterRounds ((pairs.map Prod.snd).dedup) 1 =
      clusterRoundsFuel ((pairs.map Prod.snd).dedup).length
        ((pairs.map Prod.snd).dedup) 1 from rfl, hn]
  simp only [clusterRoundsFuel, hp]
  rw [List.foldl_cons]
  have hcond : (((pairs.map Prod.snd).dedup).filter (absorbedBy p)).any
      (fun s => ((pairs.filter (fun pr => pr.1 == t)).map Prod.snd).contains s) = true :=
    List.any_eq_true.mpr ⟨"", List.mem_filter.mpr ⟨hmem_empty, habs⟩,
      List.elem_eq_true_of_mem hsm_mem⟩
  rw [if_pos hcond]
  apply foldl_label_const
  intro gs hgs
  apply List.any_eq_false.mpr
  intro s hsg
  intro hc
  have hse : s = "" := hsm_all s (List.elem_iff.mp hc)
  subst hse
  have hsrest := clusterRounds_subset gs hgs _ hsg
  have hnab := (List.mem_filter.mp hsrest).2
  rw [habs] at hnab
  exact absurd hnab (by simp)

/-- Witness for `empty_fingerprint_first_group`: Token 1 carries only
the empty fingerprint, Token 2 a non-empty one; Token 1 joins group 1. -/
theorem empty_fingerprint_first_group_witness :
    assign_group_ids [(1, ""), (2, "AB")] 1 1 = some 1 :=
  empty_fingerprint_first_group [(1, ""), (2, "AB")] 1 (by decide) (by decide)
    ⟨(2, "AB"), by decide, by decide⟩

/-- C6, counterexample to the claim as stated: through the worksheet
wrapper an empty fingerprint is filtered out, so Token 1 gets *no*
GroupID at all while Token 2's group is formed; and fed directly to the
clusterer, a Token that carries the empty fingerprint *and* another
fingerprint ends up in a later group (3), not the first group (1). -/
theorem empty_fingerprint_cex :
    (process_worksheet_group_ids [(1, ""), (2, "AB")] 1 = none ∧
      process_worksheet_group_ids [(1, ""), (2, "AB")] 2 = some 1) ∧
    (assign_group_ids [(1, ""), (1, "XY"), (2, "ABC")] 1 1 = some 3 ∧
      assign_group_ids [(1, ""), (1, "XY"), (2, "ABC")] 1 2 = some 1) := by
  decide

end CardinalityAnalysis
